import Mathlib

/-!
Shallow embedding of the data-shaping pipeline of the Zone01 profile
dashboard (fnamayi/graghq): derivation of total points, level, pass/fail
counts, pass rate, audit ratio, per-project XP grouping, piscine track
classification, skill inference, the cumulative XP line chart, and the
token liveness check.  Each definition is translated from the JavaScript
source (src/js/api.js, src/js/utils.js, src/js/charts.js, src/js/ui.js,
src/js/config.js, src/app.js and the extended API module).  JavaScript
numbers are modelled as rationals, with an explicit `JSNum` type where
NaN or Infinity can arise, and `undefined` fields as `Option`.
-/

/-- JavaScript number that may be NaN or an infinity.  Amounts and
timestamps that are always plain numbers are modelled as `ℚ` directly;
`JSNum` is used where JS arithmetic can produce NaN (undefined operands,
0/0) or Infinity (x/0). -/
inductive JSNum where
  | num (q : ℚ)
  | nan
  | inf
  | ninf
deriving DecidableEq, Repr

/-- JS addition: NaN propagates; opposite infinities give NaN. -/
def jsAdd : JSNum → JSNum → JSNum
  | .num a, .num b => .num (a + b)
  | .nan, _ => .nan
  | _, .nan => .nan
  | .inf, .ninf => .nan
  | .ninf, .inf => .nan
  | .inf, _ => .inf
  | _, .inf => .inf
  | .ninf, _ => .ninf
  | _, .ninf => .ninf

/-- JS subtraction. -/
def jsSub : JSNum → JSNum → JSNum
  | .num a, .num b => .num (a - b)
  | .nan, _ => .nan
  | _, .nan => .nan
  | .inf, .inf => .nan
  | .ninf, .ninf => .nan
  | .inf, _ => .inf
  | _, .inf => .ninf
  | .ninf, _ => .ninf
  | _, .ninf => .inf

/-- JS multiplication: NaN propagates; infinity times zero is NaN. -/
def jsMul : JSNum → JSNum → JSNum
  | .num a, .num b => .num (a * b)
  | .nan, _ => .nan
  | _, .nan => .nan
  | .inf, .num b => if b = 0 then .nan else if 0 < b then .inf else .ninf
  | .num a, .inf => if a = 0 then .nan else if 0 < a then .inf else .ninf
  | .ninf, .num b => if b = 0 then .nan else if 0 < b then .ninf else .inf
  | .num a, .ninf => if a = 0 then .nan else if 0 < a then .ninf else .inf
  | .inf, .inf => .inf
  | .ninf, .ninf => .inf
  | .inf, .ninf => .ninf
  | .ninf, .inf => .ninf

/-- JS division: 0/0 is NaN, x/0 is a signed infinity, otherwise exact. -/
def jsDiv : JSNum → JSNum → JSNum
  | .num a, .num b =>
      if b = 0 then (if a = 0 then .nan else if 0 < a then .inf else .ninf)
      else .num (a / b)
  | .nan, _ => .nan
  | _, .nan => .nan
  | .inf, .inf => .nan
  | .inf, .ninf => .nan
  | .ninf, .inf => .nan
  | .ninf, .ninf => .nan
  | .inf, .num b => if 0 ≤ b then .inf else .ninf
  | .ninf, .num b => if 0 ≤ b then .ninf else .inf
  | .num _, .inf => .num 0
  | .num _, .ninf => .num 0

/-- Coercion of a possibly-undefined numeric field into JS arithmetic:
`undefined` becomes NaN. -/
def optToJS : Option ℚ → JSNum
  | none => .nan
  | some a => .num a

/-- JS `Math.round`: round half toward positive infinity. -/
def jsRound (q : ℚ) : ℤ := ⌊q + 1 / 2⌋

/-- CONFIG.XP_PER_LEVEL from src/js/config.js line 33. -/
def XP_PER_LEVEL : ℚ := 66000

/-! ## C1: total points (src/js/api.js line 181, src/app.js line 188) -/

/-- An XP transaction record as consumed by the total-points derivation:
only the `amount` field is read, and it may be absent. -/
structure Txn where
  amount : Option ℚ
deriving DecidableEq, Repr

/-- JS truthiness default `t.amount || 0`: undefined (and 0) give 0. -/
def jsOrZero : Option ℚ → ℚ
  | none => 0
  | some a => if a = 0 then 0 else a

/-- api.js line 181: `transactions.reduce((sum, t) => sum + (t.amount || 0), 0)`. -/
def totalXP (ts : List Txn) : ℚ :=
  ts.foldl (fun sum t => sum + jsOrZero t.amount) 0

/-- app.js line 188: `transactions.reduce((sum, tr) => sum + tr.amount, 0)`;
no default, so an undefined amount enters JS arithmetic as NaN. -/
def appMaxXP (ts : List Txn) : JSNum :=
  ts.foldl (fun sum t => jsAdd sum (optToJS t.amount)) (.num 0)

/-! ## C3: pass rate (src/js/utils.js lines 118-121, api.js line 215) -/

/-- utils.js calculatePercentage: 0 when total is 0, else
`Math.round((value / total) * 100)`. -/
def calculatePercentage (value total : ℚ) : ℚ :=
  if total = 0 then 0 else ((jsRound (value / total * 100) : ℤ) : ℚ)

/-- api.js line 215: `totalProjects > 0 ? Utils.calculatePercentage(passedProjects, totalProjects) : 0`
with `totalProjects = passedProjects + failedProjects`. -/
def passRateOf (passed failed : ℕ) : ℚ :=
  if 0 < passed + failed
  then calculatePercentage (passed : ℚ) ((passed + failed : ℕ) : ℚ)
  else 0

/-! ## C2: pass/fail counts (src/js/api.js lines 185-187) -/

/-- A progress entry as consumed by the pass/fail derivation: only the
`grade` field is read, and it may be absent. -/
structure ProgEntry where
  grade : Option ℚ
deriving DecidableEq, Repr

/-- JS `p.grade >= 1`: any comparison with undefined is false. -/
def gradePasses (g : Option ℚ) : Bool :=
  match g with
  | none => false
  | some q => decide (1 ≤ q)

/-- JS `p.grade === 0`: strict equality with undefined is false. -/
def gradeFails (g : Option ℚ) : Bool :=
  match g with
  | none => false
  | some q => decide (q = 0)

/-- api.js line 185: `progress.filter(p => p.grade >= 1).length`. -/
def passedProjects (l : List ProgEntry) : ℕ :=
  (l.filter (fun p => gradePasses p.grade)).length

/-- api.js line 186: `progress.filter(p => p.grade === 0).length`. -/
def failedProjects (l : List ProgEntry) : ℕ :=
  (l.filter (fun p => gradeFails p.grade)).length

/-! ## C4: audit ratio (src/js/api.js line 206, src/app.js line 274) -/

/-- The audit-ratio field surfaced to consumers: either a JS number or
the literal string sentinel `N/A`. -/
inductive AuditRatioVal where
  | val (x : JSNum)
  | na
deriving DecidableEq, Repr

/-- JS `Number.prototype.toFixed(d)` on a rational: round to `d` decimal
places, ties toward the larger candidate. -/
def toFixedQ (d : ℕ) (q : ℚ) : ℚ := ((⌊q * 10 ^ d + 1 / 2⌋ : ℤ) : ℚ) / 10 ^ d

/-- `toFixed` lifted to JS numbers (NaN and infinities pass through,
as their string forms do). -/
def jsToFixed (d : ℕ) : JSNum → JSNum
  | .num q => .num (toFixedQ d q)
  | x => x

/-- api.js line 206:
`auditData.down > 0 ? (auditData.up / auditData.down).toFixed(2) : 'N/A'`. -/
def apiAuditRatioOf (up down : ℚ) : AuditRatioVal :=
  if 0 < down then .val (jsToFixed 2 (jsDiv (.num up) (.num down))) else .na

/-- app.js line 274:
`user.XPdown > 0 ? (user.XPup / user.XPdown).toFixed(1) : 'N/A'`. -/
def appAuditRatioOf (up down : ℚ) : AuditRatioVal :=
  if 0 < down then .val (jsToFixed 1 (jsDiv (.num up) (.num down))) else .na

/-! ## C5: level (src/js/utils.js lines 78-80) -/

/-- utils.js calculateLevel: `Math.floor(totalXP / CONFIG.XP_PER_LEVEL)`. -/
def calculateLevel (totalXP : ℚ) : ℤ := ⌊totalXP / XP_PER_LEVEL⌋

/-! ## C10: token liveness (src/js/utils.js lines 242-256) -/

/-- utils.js isAuthenticated, expiry part: `if (!payload || !payload.exp)
return false; return payload.exp > now;`.  The `exp` claim is modelled as
an optional number; JS truthiness makes `exp === 0` behave like absence. -/
def isLiveCheck (exp : Option ℚ) (now : ℚ) : Bool :=
  match exp with
  | none => false
  | some e => if e = 0 then false else decide (now < e)

/-! ## String helpers modelling JS string operations -/

/-- Does the character list begin with the pattern? -/
def charsStartWith : List Char → List Char → Bool
  | _, [] => true
  | [], _ :: _ => false
  | c :: s, d :: p => c == d && charsStartWith s p

/-- Does the pattern occur somewhere in the character list?  Models the
case-sensitive JS `String.includes`. -/
def charsHave (pat : List Char) : List Char → Bool
  | [] => charsStartWith [] pat
  | c :: s => charsStartWith (c :: s) pat || charsHave pat s

/-- JS `s.includes(pat)`. -/
def jsIncludes (s pat : String) : Bool := charsHave pat.toList s.toList

/-- JS `s.toLowerCase()` (ASCII, which covers every path and name the
source matches on). -/
def strToLower (s : String) : String := ⟨s.data.map Char.toLower⟩

/-- JS `s.split(sep)` for a one-character separator, on the character
list. -/
def splitOnChar (sep : Char) : List Char → List (List Char)
  | [] => [[]]
  | c :: rest =>
      let r := splitOnChar sep rest
      if c == sep then [] :: r
      else
        match r with
        | [] => [[c]]
        | g :: gs => (c :: g) :: gs

/-! ## C8: XP-by-project grouping (src/js/charts.js lines 398-421) -/

/-- A transaction as consumed by the per-project grouping: a `path` that
may be absent and a numeric amount. -/
structure PathTxn where
  path : Option String
  amount : ℚ
deriving DecidableEq, Repr

/-- charts.js lines 402-403: `const pathParts = transaction.path.split('/');
const projectName = pathParts[pathParts.length - 1] ||
pathParts[pathParts.length - 2] || 'Unknown';`.  Indexing one before the
start of the array yields `undefined`, which is falsy. -/
def projectNameOf (p : String) : String :=
  let parts := splitOnChar '/' p.data
  let last := parts.getD (parts.length - 1) []
  if last ≠ [] then ⟨last⟩
  else
    let prev := if 2 ≤ parts.length then parts.getD (parts.length - 2) [] else []
    if prev ≠ [] then ⟨prev⟩ else "Unknown"

/-- Accumulate an amount under a key in an insertion-ordered association
list, as a JS object keyed by strings does. -/
def addToGroup (k : String) (v : ℚ) : List (String × ℚ) → List (String × ℚ)
  | [] => [(k, v)]
  | (k0, v0) :: rest =>
      if k0 = k then (k0, v0 + v) :: rest else (k0, v0) :: addToGroup k v rest

/-- charts.js lines 399-410: records with a truthy path and a positive
amount are grouped; every other record is skipped. -/
def groupFold (ts : List PathTxn) : List (String × ℚ) :=
  ts.foldl (fun acc t =>
    match t.path with
    | none => acc
    | some p =>
        if p ≠ "" ∧ 0 < t.amount then addToGroup (projectNameOf p) t.amount acc
        else acc) []

/-- Stable insert for a descending sort: the new element passes over
strictly larger keys only, so earlier elements with an equal key stay
first, matching JS stable `sort((a, b) => b.xp - a.xp)`. -/
def insertDescBy {α : Type} (key : α → ℚ) (x : α) : List α → List α
  | [] => [x]
  | y :: ys => if key x < key y then y :: insertDescBy key x ys else x :: y :: ys

/-- Stable descending sort by a rational key. -/
def sortDescBy {α : Type} (key : α → ℚ) : List α → List α
  | [] => []
  | x :: xs => insertDescBy key x (sortDescBy key xs)

/-- charts.js lines 413-416: group, sort descending by summed XP, keep
the top 10. -/
def groupXPByProject (ts : List PathTxn) : List (String × ℚ) :=
  (sortDescBy (fun g => g.2) (groupFold ts)).take 10

/-- Strictly-descending check on a list of rationals, matching the
claim's wording for comparison with the code's output. -/
def strictDescQ : List ℚ → Bool
  | [] => true
  | [_] => true
  | a :: b :: t => decide (b < a) && strictDescQ (b :: t)

/-! ## C9: piscine track classification (src/js/charts.js lines 524-554) -/

/-- A progress entry as consumed by the piscine chart: a path and a
grade, either possibly absent. -/
structure PiscineEntry where
  path : Option String
  grade : Option ℚ
deriving DecidableEq, Repr

/-- charts.js lines 525-530: the four literal, case-sensitive substring
patterns. -/
def piscinePathMatches (p : String) : Bool :=
  jsIncludes p "piscine-js" || jsIncludes p "piscine-go" ||
    jsIncludes p "/js/" || jsIncludes p "/go/"

/-- charts.js lines 524-531: `p.path && (p.path.includes(...) || ...)`;
an absent or empty path is falsy. -/
def piscineSelect (e : PiscineEntry) : Bool :=
  match e.path with
  | none => false
  | some p => (p != "") && piscinePathMatches p

/-- charts.js line 524: the filtered piscine data set. -/
def piscineFiltered (l : List PiscineEntry) : List PiscineEntry :=
  l.filter piscineSelect

/-- charts.js line 545: `item.path.includes('js') ||
item.path.includes('javascript')`. -/
def classifyJS (p : String) : Bool :=
  jsIncludes p "js" || jsIncludes p "javascript"

/-- Entries tallied into the JavaScript bucket (charts.js lines 544-554). -/
def jsBucket (l : List PiscineEntry) : List PiscineEntry :=
  (piscineFiltered l).filter (fun e => (e.path.map classifyJS).getD false)

/-- Entries tallied into the Go bucket (charts.js lines 544-554). -/
def goBucket (l : List PiscineEntry) : List PiscineEntry :=
  (piscineFiltered l).filter (fun e => !((e.path.map classifyJS).getD false))

/-- Claim-side reading of the selection rule: case-insensitive literal
substring match (the patterns are already lower case), written from the
claim's words for comparison with the source's case-sensitive filter. -/
def specSelectsCaseInsensitive (e : PiscineEntry) : Bool :=
  match e.path with
  | none => false
  | some p => piscinePathMatches (strToLower p)

/-! ## C6: skill inference chain (extended API module lines 405-575,
src/js/ui.js lines 518-545) -/

/-- A skill-shaped record: the fields every consumer reads are the
magnitude (`amount`) and the display name (`object.name`). -/
structure SkillRec where
  amount : ℚ
  name : String
deriving DecidableEq, Repr

/-- A `projectSkills` progress row.  The query filters `grade ≥ 1`, so
the grade is always a present number. -/
structure ProjRec where
  grade : ℚ
  path : Option String
  objectName : Option String
deriving DecidableEq, Repr

/-- extractSkillFromProject (extended API module lines 475-500): an
ordered cascade of case-sensitive path substring rules, then
lower-cased project-name rules, then the generic label. -/
def extractSkillFromProject (projectName : String) (path : Option String) : String :=
  let fromPath : Option String :=
    match path with
    | none => none
    | some p =>
        if p = "" then none
        else if jsIncludes p "javascript" || jsIncludes p "js" then some "JavaScript"
        else if jsIncludes p "golang" || jsIncludes p "go" then some "Go"
        else if jsIncludes p "python" then some "Python"
        else if jsIncludes p "rust" then some "Rust"
        else if jsIncludes p "sql" then some "SQL"
        else if jsIncludes p "docker" then some "Docker"
        else if jsIncludes p "linux" then some "Linux"
        else if jsIncludes p "algorithm" then some "Algorithms"
        else if jsIncludes p "math" then some "Mathematics"
        else none
  match fromPath with
  | some s => s
  | none =>
      let nm := strToLower projectName
      if jsIncludes nm "js" || jsIncludes nm "javascript" then "JavaScript"
      else if jsIncludes nm "go" || jsIncludes nm "golang" then "Go"
      else if jsIncludes nm "algorithm" then "Algorithms"
      else if jsIncludes nm "math" then "Mathematics"
      else if jsIncludes nm "web" then "Web Development"
      else if jsIncludes nm "api" then "API Development"
      else if jsIncludes nm "database" || jsIncludes nm "db" then "Database"
      else "Programming"

/-- One step of the skill `Map` accumulation: merge the grade into an
existing key or append a new entry, preserving insertion order. -/
def addSkillTo (k nm : String) (g : ℚ) :
    List (String × SkillRec) → List (String × SkillRec)
  | [] => [(k, ⟨g, nm⟩)]
  | (k0, s0) :: rest =>
      if k0 = k then (k0, ⟨s0.amount + g, s0.name⟩) :: rest
      else (k0, s0) :: addSkillTo k nm g rest

/-- processProjectSkills (extended API module lines 438-467): entries
with a truthy object name are keyed by the lower-cased inferred skill
label, grades are summed, and the values are sorted descending by
amount. -/
def processProjectSkills (ps : List ProjRec) : List SkillRec :=
  let m := ps.foldl (fun acc p =>
    match p.objectName with
    | none => acc
    | some nm =>
        if nm = "" then acc
        else addSkillTo (strToLower (extractSkillFromProject nm p.path))
          (extractSkillFromProject nm p.path) p.grade acc) []
  sortDescBy (fun s => s.amount) (m.map (fun kv => kv.2))

/-- generateSkillsFromProjects (extended API module lines 507-526). -/
def generateSkillsFromProjects (projects : List ProjRec) : List SkillRec :=
  let completed := (projects.filter (fun p => decide (1 ≤ p.grade))).length
  [⟨(projects.length : ℚ) * 2, "Problem Solving"⟩,
   ⟨(completed : ℚ) * 3, "Programming"⟩,
   ⟨(projects.length : ℚ), "Project Management"⟩,
   ⟨(completed : ℚ) * 2, "Code Quality"⟩]

/-- generateFallbackSkills (extended API module lines 532-575). -/
def generateFallbackSkills : List SkillRec :=
  [⟨85, "Programming"⟩, ⟨75, "Problem Solving"⟩, ⟨65, "Algorithms"⟩,
   ⟨60, "Web Development"⟩, ⟨55, "Teamwork"⟩]

/-- fetchUserSkills (extended API module lines 405-431): on query
failure emit the fallback set; otherwise concatenate skill transactions
with processed project skills, and only when that concatenation is empty
while raw project rows exist, derive skills from the projects. -/
def fetchUserSkills (skillTransactions : List SkillRec)
    (projectSkills : List ProjRec) (queryFails : Bool) : List SkillRec :=
  if queryFails then generateFallbackSkills
  else
    let allSkills := skillTransactions ++ processProjectSkills projectSkills
    if allSkills.isEmpty && !projectSkills.isEmpty then
      generateSkillsFromProjects projectSkills
    else allSkills

/-- ui.js generateDefaultSkills (lines 518-545): five base skills with a
level and project adjustment, capped at 100 and rounded; JS truthiness
turns level 0 into the default multiplier 1. -/
def generateDefaultSkills (level totalProjects : ℚ) : List SkillRec :=
  let lvl := if level = 0 then 1 else level
  let adjust := fun (base : ℚ) =>
    ((jsRound (min 100 (base + lvl * (1 / 10) + totalProjects * (1 / 2))) : ℤ) : ℚ)
  [⟨adjust 80, "Programming"⟩, ⟨adjust 75, "Problem Solving"⟩,
   ⟨adjust 70, "Algorithms"⟩, ⟨adjust 65, "Web Development"⟩,
   ⟨adjust 60, "Teamwork"⟩]

/-- ui.js createCharts (lines 470-476): the skills passed to the chart
are the fetched ones when non-empty, else the generated defaults. -/
def uiSkillsData (skills : List SkillRec) (level totalProjects : ℚ) : List SkillRec :=
  if skills.isEmpty then generateDefaultSkills level totalProjects else skills

/-! ## C7: cumulative XP line chart (src/js/charts.js lines 13-116,
src/app.js lines 338-368) -/

/-- A transaction as consumed by the XP line chart. -/
structure TxnC where
  amount : ℚ
  createdAt : ℚ
deriving DecidableEq, Repr

/-- Outcome of an XP line-chart render: one of the two placeholder
states, or a drawing given by its point coordinates. -/
inductive XPChartResult where
  | noData
  | notEnough
  | line (pts : List (JSNum × JSNum))
deriving DecidableEq, Repr

/-- Running cumulative XP paired with each timestamp. -/
def cumulXP (acc : ℚ) : List TxnC → List (ℚ × ℚ)
  | [] => []
  | t :: rest => (t.createdAt, acc + t.amount) :: cumulXP (acc + t.amount) rest

/-- `Math.max` over a list (head-seeded fold). -/
def maxListQ : List ℚ → ℚ
  | [] => 0
  | x :: xs => xs.foldl max x

/-- The point coordinates both renderers compute:
`x = (date - minDate) / (maxDate - minDate) * chartWidth` and
`y = chartHeight - xp / maxXP * chartHeight`, in JS arithmetic where a
zero timestamp range gives 0/0 = NaN. -/
def chartPoints (chartWidth chartHeight : ℚ) (data : List (ℚ × ℚ)) :
    List (JSNum × JSNum) :=
  let minDate := (data.head?.map (fun d => d.1)).getD 0
  let maxDate := ((data.getLast?).map (fun d => d.1)).getD 0
  let maxXP := maxListQ (data.map (fun d => d.2))
  data.map (fun d =>
    (jsMul (jsDiv (.num (d.1 - minDate)) (.num (maxDate - minDate))) (.num chartWidth),
     jsSub (.num chartHeight)
       (jsMul (jsDiv (.num d.2) (.num maxXP)) (.num chartHeight))))

/-- charts.js createXPProgressChart (lines 13-116): only an absent or
empty transaction list renders the placeholder; any non-empty list,
including a single record, proceeds to the drawing. -/
def chartsXPProgressChart (ts : List TxnC) : XPChartResult :=
  if ts.isEmpty then .noData
  else .line (chartPoints 510 240 (cumulXP 0 ts))

/-- app.js createXPChart (lines 338-453): an empty list and a list with
fewer than two records both render placeholder states before any
coordinate is computed. -/
def appXPChart (ts : List TxnC) : XPChartResult :=
  if ts.isEmpty then .noData
  else if ts.length < 2 then .notEnough
  else .line (chartPoints 520 240 (cumulXP 0 ts))

/-! # Theorems -/

/-- Helper: fix the value of a concrete floor. -/
theorem floorEqOf {q : ℚ} {n : ℤ} (h1 : (n : ℚ) ≤ q) (h2 : q < n + 1) :
    ⌊q⌋ = n := Int.floor_eq_iff.mpr ⟨h1, h2⟩

/-- Helper: `foldl` summation over a list equals the mapped sum. -/
theorem foldl_add_eq_sum {α : Type} (f : α → ℚ) (l : List α) (init : ℚ) :
    l.foldl (fun s t => s + f t) init = init + (l.map f).sum := by
  induction l generalizing init with
  | nil => simp
  | cons a l ih => simp [List.foldl_cons, ih, add_assoc]

/-- C1 counterexample: a record with a missing `amount` makes app.js's
fetchUserData total NaN, not zero: the claim fails on the consolidated
derivation at the one-record sequence with no amount. -/
theorem totalPoints_missing_amount_cex :
    appMaxXP [⟨none⟩] = .nan ∧ JSNum.nan ≠ JSNum.num 0 := by
  constructor
  · rfl
  · intro h; cases h

/-- Helper: `jsOrZero` is equivalent to defaulting an absent amount to 0. -/
theorem jsOrZero_eq_getD (o : Option ℚ) : jsOrZero o = o.getD 0 := by
  cases o with
  | none => rfl
  | some a => by_cases ha : a = 0 <;> simp [jsOrZero, ha]

/-- Helper: when every amount is present, the app.js running JS sum stays
a plain number equal to the rational sum. -/
theorem appMaxXP_foldl_all_present (ts : List Txn)
    (h : ∀ t ∈ ts, t.amount ≠ none) (init : ℚ) :
    ts.foldl (fun sum t => jsAdd sum (optToJS t.amount)) (.num init) =
      .num (init + (ts.map (fun t => t.amount.getD 0)).sum) := by
  induction ts generalizing init with
  | nil => simp
  | cons t ts ih =>
      obtain ⟨a, ha⟩ := Option.ne_none_iff_exists'.mp (h t (by simp))
      have hrest : ∀ u ∈ ts, u.amount ≠ none := fun u hu => h u (by simp [hu])
      have hstep : jsAdd (.num init) (optToJS t.amount) = .num (init + a) := by
        rw [ha]; rfl
      rw [List.foldl_cons, hstep, ih hrest (init + a)]
      simp [ha, add_assoc]

/-- C1 (amended): for every record sequence — missing amounts included —
the api.js-derived total equals the sum of the amount fields with a
missing amount contributing zero (and, being a total function on
rationals, never throws); the consolidated app.js derivation agrees with
that total whenever every amount is present, since a missing amount
poisons its running sum to NaN. -/
theorem totalPoints_amended (ts : List Txn) :
    totalXP ts = (ts.map (fun t => t.amount.getD 0)).sum ∧
      ((∀ t ∈ ts, t.amount ≠ none) → appMaxXP ts = .num (totalXP ts)) := by
  have htot : totalXP ts = (ts.map (fun t => t.amount.getD 0)).sum := by
    rw [totalXP, foldl_add_eq_sum, zero_add]
    simp only [jsOrZero_eq_getD]
  refine ⟨htot, fun h => ?_⟩
  rw [appMaxXP, appMaxXP_foldl_all_present ts h 0, zero_add, htot]

/-- C1 witness: the unconditional conjunct exercised on a sequence with
a missing amount, the conditional one discharged on an all-present
sequence. -/
theorem totalPoints_amended_witness :
    totalXP [⟨none⟩, ⟨some 2000⟩] =
        (([⟨none⟩, ⟨some 2000⟩] : List Txn).map (fun t => t.amount.getD 0)).sum ∧
      appMaxXP [⟨some 1000⟩, ⟨some 2000⟩] = .num (totalXP [⟨some 1000⟩, ⟨some 2000⟩]) :=
  ⟨(totalPoints_amended [⟨none⟩, ⟨some 2000⟩]).1,
    (totalPoints_amended [⟨some 1000⟩, ⟨some 2000⟩]).2 (by decide)⟩

/-- Helper: two pointwise-incompatible filters together keep at most the
whole list. -/
theorem filter_disjoint_length_le {α : Type} (p q : α → Bool)
    (hpq : ∀ x, p x = true → q x = false) (l : List α) :
    (l.filter p).length + (l.filter q).length ≤ l.length := by
  induction l with
  | nil => simp
  | cons a l ih =>
      by_cases hp : p a = true
      · have hq : q a = false := hpq a hp
        simp only [List.filter_cons, hp, hq, if_true, Bool.false_eq_true,
          if_false, List.length_cons]
        omega
      · rw [List.filter_cons, List.filter_cons]
        by_cases hq : q a = true <;>
          simp only [hp, hq, if_true, if_false, Bool.false_eq_true,
            List.length_cons] <;> omega

/-- Helper: the source pass predicate in claim-side form. -/
theorem gradePasses_eq (g : Option ℚ) :
    gradePasses g = (g.map (fun q => decide (1 ≤ q))).getD false := by
  cases g <;> rfl

/-- Helper: the source fail predicate in claim-side form. -/
theorem gradeFails_eq (g : Option ℚ) :
    gradeFails g = (g.map (fun q => decide (q = 0))).getD false := by
  cases g <;> rfl

/-- C2: the pass count is the number of entries with a grade at least 1,
the fail count is the number of entries with grade exactly 0, an entry
whose grade is missing or negative (or any value other than those two
cases) is counted in neither, and pass plus fail never exceeds the number
of progress entries. -/
theorem passFail_spec (l : List ProgEntry) (e : ProgEntry)
    (h : e.grade = none ∨ ∃ g, e.grade = some g ∧ g < 1 ∧ g ≠ 0) :
    passedProjects l = l.countP (fun p => (p.grade.map (fun g => decide (1 ≤ g))).getD false) ∧
      failedProjects l = l.countP (fun p => (p.grade.map (fun g => decide (g = 0))).getD false) ∧
      passedProjects l + failedProjects l ≤ l.length ∧
      passedProjects (e :: l) = passedProjects l ∧
      failedProjects (e :: l) = failedProjects l := by
  have hpass : ∀ p : ProgEntry, gradePasses p.grade = true → gradeFails p.grade = false := by
    intro p hp
    cases hg : p.grade with
    | none => rw [hg] at hp; cases hp
    | some g =>
        rw [hg] at hp
        have h1 : 1 ≤ g := of_decide_eq_true hp
        have : g ≠ 0 := by linarith
        simp [gradeFails, this]
  have hepass : gradePasses e.grade = false := by
    rcases h with h | ⟨g, hg, hlt, _⟩
    · simp [gradePasses, h]
    · simp [gradePasses, hg, not_le.mpr hlt]
  have hefail : gradeFails e.grade = false := by
    rcases h with h | ⟨g, hg, _, hne⟩
    · simp [gradeFails, h]
    · simp [gradeFails, hg, hne]
  refine ⟨?_, ?_, ?_, ?_, ?_⟩
  · rw [passedProjects, List.countP_eq_length_filter]
    simp only [gradePasses_eq]
  · rw [failedProjects, List.countP_eq_length_filter]
    simp only [gradeFails_eq]
  · exact filter_disjoint_length_le _ _ hpass l
  · simp [passedProjects, List.filter_cons, hepass]
  · simp [failedProjects, List.filter_cons, hefail]

/-- C2 witness. -/
theorem passFail_spec_witness :
    passedProjects [⟨some 1⟩, ⟨some 0⟩, ⟨none⟩] =
        ([⟨some 1⟩, ⟨some 0⟩, ⟨none⟩] : List ProgEntry).countP
          (fun p => (p.grade.map (fun g => decide (1 ≤ g))).getD false) ∧
      failedProjects [⟨some 1⟩, ⟨some 0⟩, ⟨none⟩] =
        ([⟨some 1⟩, ⟨some 0⟩, ⟨none⟩] : List ProgEntry).countP
          (fun p => (p.grade.map (fun g => decide (g = 0))).getD false) ∧
      passedProjects [⟨some 1⟩, ⟨some 0⟩, ⟨none⟩] +
          failedProjects [⟨some 1⟩, ⟨some 0⟩, ⟨none⟩] ≤
        ([⟨some 1⟩, ⟨some 0⟩, ⟨none⟩] : List ProgEntry).length ∧
      passedProjects (⟨some (-1)⟩ :: [⟨some 1⟩, ⟨some 0⟩, ⟨none⟩]) =
        passedProjects [⟨some 1⟩, ⟨some 0⟩, ⟨none⟩] ∧
      failedProjects (⟨some (-1)⟩ :: [⟨some 1⟩, ⟨some 0⟩, ⟨none⟩]) =
        failedProjects [⟨some 1⟩, ⟨some 0⟩, ⟨none⟩] :=
  passFail_spec _ _ (Or.inr ⟨-1, rfl, by norm_num, by norm_num⟩)

/-- C4 counterexample: the surfaced audit ratio is the division result
rounded by `toFixed(2)`, so at given = 1, received = 3 it is 0.33, which
is not given/received = 1/3. -/
theorem auditRatio_rounding_cex :
    apiAuditRatioOf 1 3 = .val (.num (33 / 100)) ∧ (33 / 100 : ℚ) ≠ 1 / 3 := by
  constructor
  · have hdiv : jsDiv (.num 1) (.num 3) = .num (1 / 3) := by
      simp [jsDiv]
    have hfloor : (⌊((1 : ℚ) / 3 * 10 ^ 2 + 1 / 2 : ℚ)⌋ : ℤ) = 33 := by
      apply floorEqOf <;> norm_num
    rw [apiAuditRatioOf, if_pos (by norm_num), hdiv, jsToFixed, toFixedQ, hfloor]
    norm_num
  · norm_num

/-- C4 (amended): the derived audit ratio is given/received rounded to
two decimal places (api.js; one decimal in app.js) when received is
positive, the explicit `N/A` sentinel when received is 0 even if given
is positive, and never NaN or an infinity; a non-negative quotient stays
non-negative, and Ratio(50, 100) = 0.5. -/
theorem auditRatio_amended (up down : ℚ) :
    apiAuditRatioOf up down =
        (if 0 < down then .val (.num (toFixedQ 2 (up / down))) else .na) ∧
      appAuditRatioOf up down =
        (if 0 < down then .val (.num (toFixedQ 1 (up / down))) else .na) ∧
      (∀ x : JSNum, apiAuditRatioOf up down = .val x →
        x ≠ .nan ∧ x ≠ .inf ∧ x ≠ .ninf) ∧
      (0 ≤ up → 0 < down →
        apiAuditRatioOf up down = .val (.num (toFixedQ 2 (up / down))) ∧
          0 ≤ toFixedQ 2 (up / down)) ∧
      apiAuditRatioOf 50 100 = .val (.num (1 / 2)) := by
  have hapi : apiAuditRatioOf up down =
      (if 0 < down then .val (.num (toFixedQ 2 (up / down))) else .na) := by
    by_cases hd : 0 < down
    · rw [apiAuditRatioOf, if_pos hd, if_pos hd]
      have : jsDiv (.num up) (.num down) = .num (up / down) := by
        simp [jsDiv, ne_of_gt hd]
      rw [this, jsToFixed]
    · rw [apiAuditRatioOf, if_neg hd, if_neg hd]
  have happ : appAuditRatioOf up down =
      (if 0 < down then .val (.num (toFixedQ 1 (up / down))) else .na) := by
    by_cases hd : 0 < down
    · rw [appAuditRatioOf, if_pos hd, if_pos hd]
      have : jsDiv (.num up) (.num down) = .num (up / down) := by
        simp [jsDiv, ne_of_gt hd]
      rw [this, jsToFixed]
    · rw [appAuditRatioOf, if_neg hd, if_neg hd]
  refine ⟨hapi, happ, ?_, ?_, ?_⟩
  · intro x hx
    rw [hapi] at hx
    by_cases hd : 0 < down
    · rw [if_pos hd] at hx
      injection hx with h
      subst h
      refine ⟨fun hc => ?_, fun hc => ?_, fun hc => ?_⟩ <;> cases hc
    · rw [if_neg hd] at hx
      cases hx
  · intro hup hd
    refine ⟨by rw [hapi, if_pos hd], ?_⟩
    rw [toFixedQ]
    apply div_nonneg _ (by norm_num)
    have harg : (0 : ℚ) ≤ up / down * 10 ^ 2 + 1 / 2 := by
      have := div_nonneg hup (le_of_lt hd)
      positivity
    exact_mod_cast Int.cast_nonneg.mpr (Int.floor_nonneg.mpr harg)
  · have hdiv : jsDiv (.num 50) (.num 100) = .num (1 / 2) := by
      simp [jsDiv]
      norm_num
    have hfloor : (⌊((1 : ℚ) / 2 * 10 ^ 2 + 1 / 2 : ℚ)⌋ : ℤ) = 50 := by
      apply floorEqOf <;> norm_num
    rw [apiAuditRatioOf, if_pos (by norm_num), hdiv, jsToFixed, toFixedQ, hfloor]
    norm_num

/-- C4 witness. -/
theorem auditRatio_amended_witness :
    apiAuditRatioOf 50 100 = .val (.num (toFixedQ 2 (50 / 100))) ∧
      0 ≤ toFixedQ 2 ((50 : ℚ) / 100) ∧ apiAuditRatioOf 7 0 = .na :=
  ⟨((auditRatio_amended 50 100).2.2.2.1 (by norm_num) (by norm_num)).1,
    ((auditRatio_amended 50 100).2.2.2.1 (by norm_num) (by norm_num)).2,
    by rw [(auditRatio_amended 7 0).1]; norm_num⟩

/-- C3: the derived pass rate equals `round(100 * passed / (passed + failed))`
and is 0 (not a sentinel) when the denominator is 0; in particular
passRate(3, 1) = 75 and passRate(0, 0) = 0. -/
theorem passRate_spec (p f : ℕ) :
    passRateOf p f =
        (if p + f = 0 then 0
         else ((⌊(100 * (p : ℚ) / ((p : ℚ) + (f : ℚ)) + 1 / 2 : ℚ)⌋ : ℤ) : ℚ)) ∧
      passRateOf 3 1 = 75 ∧ passRateOf 0 0 = 0 := by
  refine ⟨?_, ?_, rfl⟩
  · by_cases h : p + f = 0
    · simp [passRateOf, h]
    · have hpos : 0 < p + f := Nat.pos_of_ne_zero h
      have hq : ((p + f : ℕ) : ℚ) ≠ 0 := by
        exact_mod_cast h
      rw [passRateOf, if_pos hpos, calculatePercentage, if_neg hq, if_neg h]
      rw [jsRound]
      congr 2
      push_cast
      ring
  · have h151 : (⌊(151 / 2 : ℚ)⌋ : ℤ) = 75 := by
      apply floorEqOf <;> norm_num
    norm_num [passRateOf, calculatePercentage, jsRound, h151]

/-- C5: the level is `floor(totalPoints / threshold)` with the threshold
the configured constant 66000; level(0) = 0, level(65999) = 0,
level(66000) = 1, and the level of a non-negative total is never
negative. -/
theorem level_spec (t : ℚ) (h : 0 ≤ t) :
    calculateLevel t = ⌊t / 66000⌋ ∧ XP_PER_LEVEL = 66000 ∧
      0 ≤ calculateLevel t ∧ calculateLevel 0 = 0 ∧
      calculateLevel 65999 = 0 ∧ calculateLevel 66000 = 1 := by
  refine ⟨rfl, rfl, ?_, ?_, ?_, ?_⟩
  · rw [calculateLevel, XP_PER_LEVEL]
    apply Int.floor_nonneg.mpr
    positivity
  · rw [calculateLevel, XP_PER_LEVEL]
    norm_num
  · rw [calculateLevel, XP_PER_LEVEL]
    apply floorEqOf <;> norm_num
  · rw [calculateLevel, XP_PER_LEVEL]
    norm_num

/-- C5 witness. -/
theorem level_spec_witness :
    calculateLevel 123 = ⌊(123 : ℚ) / 66000⌋ ∧ XP_PER_LEVEL = 66000 ∧
      0 ≤ calculateLevel 123 ∧ calculateLevel 0 = 0 ∧
      calculateLevel 65999 = 0 ∧ calculateLevel 66000 = 1 :=
  level_spec 123 (by norm_num)

/-- C10: for any decoded claims payload and any non-negative time, the
liveness check returns true iff an expiry claim is present and strictly
greater than now; an absent expiry claim yields false (fail closed). -/
theorem isLive_spec (exp : Option ℚ) (now : ℚ) (h : 0 ≤ now) :
    (isLiveCheck exp now = true ↔ ∃ e, exp = some e ∧ now < e) ∧
      isLiveCheck none now = false := by
  refine ⟨?_, rfl⟩
  cases exp with
  | none => simp [isLiveCheck]
  | some e =>
      by_cases he : e = 0
      · subst he
        simp only [isLiveCheck, if_pos rfl]
        constructor
        · intro hfalse; cases hfalse
        · rintro ⟨e, he, hlt⟩
          cases he
          exact absurd hlt (not_lt.mpr h)
      · simp [isLiveCheck, he]

/-- C10 witness. -/
theorem isLive_spec_witness :
    (0 : ℚ) ≤ 100 ∧
      ((isLiveCheck (some 200) 100 = true ↔ ∃ e, (some (200 : ℚ)) = some e ∧ 100 < e) ∧
        isLiveCheck none (100 : ℚ) = false) :=
  ⟨by norm_num, isLive_spec (some 200) 100 (by norm_num)⟩

/-- Helper: the head of a stable descending insert is either the new
element or the previous head. -/
theorem insertDescBy_head {α : Type} (key : α → ℚ) (x : α) (l : List α) (z : α)
    (hz : (insertDescBy key x l).head? = some z) : z = x ∨ l.head? = some z := by
  cases l with
  | nil =>
      rw [insertDescBy] at hz
      exact Or.inl (Option.some_injective _ hz).symm
  | cons y ys =>
      rw [insertDescBy] at hz
      by_cases hlt : key x < key y
      · rw [if_pos hlt] at hz
        exact Or.inr hz
      · rw [if_neg hlt] at hz
        exact Or.inl (Option.some_injective _ hz).symm

/-- Helper: a stable descending insert preserves the descending chain. -/
theorem insertDescBy_chain {α : Type} (key : α → ℚ) (x : α) (l : List α)
    (h : List.Chain' (fun a b => key b ≤ key a) l) :
    List.Chain' (fun a b => key b ≤ key a) (insertDescBy key x l) := by
  induction l with
  | nil => simp [insertDescBy]
  | cons y ys ih =>
      rw [insertDescBy]
      by_cases hlt : key x < key y
      · rw [if_pos hlt]
        rcases List.chain'_cons'.mp h with ⟨hhead, htail⟩
        refine List.chain'_cons'.mpr ⟨?_, ih htail⟩
        intro z hz
        rcases insertDescBy_head key x ys z hz with hzx | hzy
        · subst hzx; exact le_of_lt hlt
        · exact hhead z hzy
      · rw [if_neg hlt]
        exact List.chain'_cons'.mpr ⟨fun z hz => by
          cases hz; exact not_lt.mp hlt, h⟩

/-- Helper: the stable descending sort produces a descending chain. -/
theorem sortDescBy_chain {α : Type} (key : α → ℚ) (l : List α) :
    List.Chain' (fun a b => key b ≤ key a) (sortDescBy key l) := by
  induction l with
  | nil => simp [sortDescBy]
  | cons x xs ih => exact insertDescBy_chain key x _ ih

/-- C8 counterexample: a record with an absent path is dropped rather
than grouped under the fixed label, a path whose last two segments are
empty is labelled Unknown even though a non-empty segment exists, and a
tie between two groups leaves the output only weakly, not strictly,
descending. -/
theorem xpByProject_cex :
    groupXPByProject [{ path := none, amount := 5 }] = [] ∧
      groupXPByProject [{ path := some "a/b//", amount := 5 }] = [("Unknown", 5)] ∧
      groupXPByProject
          [{ path := some "x/a", amount := 5 }, { path := some "x/b", amount := 5 }] =
        [("a", 5), ("b", 5)] ∧
      strictDescQ
          ((groupXPByProject
            [{ path := some "x/a", amount := 5 },
             { path := some "x/b", amount := 5 }]).map (fun g => g.2)) = false := by
  refine ⟨by decide, by decide, by decide, by decide⟩

/-- C8 (amended): the grouping keys each record that has a non-empty
path and a positive amount by its last path segment, falling back to the
segment before it and then to the label Unknown when those are empty;
records with an absent or empty path or a non-positive amount are
excluded entirely; amounts are summed per group, at most the configured
10 groups are emitted, and the emitted groups are in non-strictly
descending order of aggregated value (ties keep insertion order). -/
theorem xpByProject_amended (ts : List PathTxn) (t : PathTxn)
    (h : t.path = none ∨ t.path = some "" ∨ t.amount ≤ 0) :
    (groupXPByProject ts).length ≤ 10 ∧
      List.Chain' (fun a b : String × ℚ => b.2 ≤ a.2) (groupXPByProject ts) ∧
      groupXPByProject (t :: ts) = groupXPByProject ts := by
  refine ⟨?_, ?_, ?_⟩
  · rw [groupXPByProject]
    exact le_trans (List.length_take_le 10 _) (le_refl 10)
  · exact List.Chain'.take (sortDescBy_chain (fun g => g.2) (groupFold ts)) 10
  · have hstep : ∀ acc : List (String × ℚ),
        (match t.path with
          | none => acc
          | some p =>
              if p ≠ "" ∧ 0 < t.amount then addToGroup (projectNameOf p) t.amount acc
              else acc) = acc := by
      intro acc
      rcases h with hp | hp | hamt
      · rw [hp]
      · rw [hp]
        simp
      · cases hpath : t.path with
        | none => rfl
        | some p =>
            have : ¬ (p ≠ "" ∧ 0 < t.amount) := by
              rintro ⟨-, hpos⟩
              exact absurd hamt (not_le.mpr hpos)
            simp [this]
    rw [groupXPByProject, groupXPByProject, groupFold, groupFold, List.foldl_cons, hstep]

/-- C8 witness. -/
theorem xpByProject_amended_witness :
    (groupXPByProject [{ path := some "a/b", amount := 5 }]).length ≤ 10 ∧
      List.Chain' (fun a b : String × ℚ => b.2 ≤ a.2)
        (groupXPByProject [{ path := some "a/b", amount := 5 }]) ∧
      groupXPByProject ({ path := none, amount := 3 } ::
          [{ path := some "a/b", amount := 5 }]) =
        groupXPByProject [{ path := some "a/b", amount := 5 }] :=
  xpByProject_amended [{ path := some "a/b", amount := 5 }]
    { path := none, amount := 3 } (Or.inl rfl)

/-- C9 counterexample: the piscine selection is case-sensitive; an entry
whose path matches a track pattern only up to letter case is selected
under the claim's case-insensitive reading but excluded by the code,
while the lower-case spelling is selected. -/
theorem piscineCase_cex :
    specSelectsCaseInsensitive { path := some "PISCINE-JS/quest", grade := some 1 } = true ∧
      piscineFiltered [{ path := some "PISCINE-JS/quest", grade := some 1 }] = [] ∧
      piscineFiltered [{ path := some "piscine-js/quest", grade := some 1 }] =
        [{ path := some "piscine-js/quest", grade := some 1 }] := by
  refine ⟨by decide, by decide, by decide⟩

/-- C9 (amended): the track classification selects entries by matching
the literal substrings case-sensitively; an entry whose path matches
neither pattern is excluded from the classified set entirely — it lands
in neither the JavaScript nor the Go bucket — rather than being assigned
to a default bucket. -/
theorem piscine_amended (l : List PiscineEntry) (e x : PiscineEntry)
    (h : piscineSelect e = false) :
    (x ∈ piscineFiltered l ↔ x ∈ l ∧ piscineSelect x = true) ∧
      piscineFiltered (e :: l) = piscineFiltered l ∧
      e ∉ jsBucket (e :: l) ∧ e ∉ goBucket (e :: l) := by
  have hmem : ∀ y : PiscineEntry, ∀ m : List PiscineEntry,
      y ∈ piscineFiltered m ↔ y ∈ m ∧ piscineSelect y = true := by
    intro y m
    exact List.mem_filter
  have hcons : piscineFiltered (e :: l) = piscineFiltered l := by
    rw [piscineFiltered, List.filter_cons, h, piscineFiltered]
    simp
  refine ⟨hmem x l, hcons, ?_, ?_⟩
  · intro hin
    have : e ∈ piscineFiltered (e :: l) := (List.mem_filter.mp hin).1
    have := ((hmem e (e :: l)).mp this).2
    rw [h] at this
    cases this
  · intro hin
    have : e ∈ piscineFiltered (e :: l) := (List.mem_filter.mp hin).1
    have := ((hmem e (e :: l)).mp this).2
    rw [h] at this
    cases this

/-- C9 witness. -/
theorem piscine_amended_witness :
    (({ path := some "piscine-js/x", grade := some 1 } : PiscineEntry) ∈
        piscineFiltered [{ path := some "piscine-js/x", grade := some 1 },
          { path := some "other", grade := some 1 }] ↔
      ({ path := some "piscine-js/x", grade := some 1 } : PiscineEntry) ∈
          [{ path := some "piscine-js/x", grade := some 1 },
            { path := some "other", grade := some 1 }] ∧
        piscineSelect { path := some "piscine-js/x", grade := some 1 } = true) ∧
      piscineFiltered ({ path := some "other", grade := some 1 } ::
          [{ path := some "piscine-js/x", grade := some 1 },
            { path := some "other", grade := some 1 }]) =
        piscineFiltered [{ path := some "piscine-js/x", grade := some 1 },
          { path := some "other", grade := some 1 }] ∧
      ({ path := some "other", grade := some 1 } : PiscineEntry) ∉
        jsBucket ({ path := some "other", grade := some 1 } ::
          [{ path := some "piscine-js/x", grade := some 1 },
            { path := some "other", grade := some 1 }]) ∧
      ({ path := some "other", grade := some 1 } : PiscineEntry) ∉
        goBucket ({ path := some "other", grade := some 1 } ::
          [{ path := some "piscine-js/x", grade := some 1 },
            { path := some "other", grade := some 1 }]) :=
  piscine_amended _ _ _ (by decide)

/-- C6 counterexample: with one explicit skill transaction of magnitude
5 and one completed project that processes to a Programming pseudo-skill
of magnitude 10, the chain returns their concatenation, whose magnitudes
5, 10 are not in descending order. -/
theorem skillChain_not_sorted_cex :
    uiSkillsData
        (fetchUserSkills [⟨5, "SomeSkill"⟩] [⟨10, some "/foo", some "x"⟩] false) 0 0 =
      [⟨5, "SomeSkill"⟩, ⟨10, "Programming"⟩] ∧
      ¬ List.Chain' (fun a b : SkillRec => b.amount ≤ a.amount)
          [⟨5, "SomeSkill"⟩, ⟨10, "Programming"⟩] := by
  refine ⟨by decide, ?_⟩
  intro hch
  have h1 := (List.chain'_cons.mp hch).1
  norm_num at h1

/-- C6 (amended): for every input — zero explicit skill records, zero
progress entries, a fresh user at level 0 included — the skill inference
fallback chain produces a non-empty sequence of name/magnitude entries;
it never returns an empty sequence (though the sequence is not in
general sorted descending by magnitude). -/
theorem skillChain_nonempty (skillTransactions : List SkillRec)
    (projectSkills : List ProjRec) (queryFails : Bool)
    (level totalProjects : ℚ) :
    uiSkillsData (fetchUserSkills skillTransactions projectSkills queryFails)
      level totalProjects ≠ [] := by
  rw [uiSkillsData]
  by_cases h : (fetchUserSkills skillTransactions projectSkills queryFails).isEmpty
  · rw [if_pos h]
    rw [generateDefaultSkills]
    intro hc
    cases hc
  · rw [if_neg h]
    intro hc
    rw [hc] at h
    exact h rfl

/-- C7 (code bug): on a single-record input, app.js's renderer emits the
placeholder, but charts.js's createXPProgressChart proceeds to the
drawing: its x-coordinate is (t - t) / (t - t) * 510 = NaN, a zero
timestamp-range division that the contract forbids; only the empty input
gets its placeholder. -/
theorem xpChart_single_point_bug :
    chartsXPProgressChart [{ amount := 100, createdAt := 1700000000 }] =
        .line [(.nan, .num 0)] ∧
      appXPChart [{ amount := 100, createdAt := 1700000000 }] = .notEnough ∧
      chartsXPProgressChart [] = .noData ∧ appXPChart [] = .noData := by
  refine ⟨?_, by decide, by decide, by decide⟩
  rw [chartsXPProgressChart]
  norm_num [chartPoints, cumulXP, maxListQ, jsDiv, jsMul, jsSub]
